import Mathlib

/-
Verification of the montytest worker core (worker/games.py).

This file shallowly embeds the parts of `worker/games.py` that the checked
properties are about:

* the `WorkerException` / `FatalException` / `RunException` hierarchy and its
  re-wrapping constructor (`WorkerException.__new__`),
* the on-disk object cache (`cache_read` / `cache_write`), modelled as a
  finite map from file names to byte strings; the hard-link step of
  `cache_write` fails (and is silently skipped) exactly when the target name
  already exists, mirroring `os.link` semantics,
* the download-and-validate retry loop of `establish_validated_net`,
* the bench fan-out aggregation of `verify_signature`,
* the time-control scaler `adjust_tc` (on parsed time controls; Python floats
  are modelled as exact rationals),
* the per-line processing and batch-commit logic of the match-runner
  supervisor `parse_fastchess_output`, including the `update_task` POST retry
  loop, and
* the post-loop statistics update of the datagen supervisor
  `parse_datagen_output`.

Lines that the supervisor reads from the child process are modelled by the
outcome of the regex/substring tests that `parse_fastchess_output` performs on
them (an abstraction of the string matching, which is the only way the code
inspects a line).  Python's unbounded `int` is modelled by `Int`, and floats
by `Rat` (ℚ); `int(x)` applied to a float is truncation toward zero.
-/

set_option autoImplicit false

namespace Montytest

/-! ## Error model (`WorkerException`, `FatalException`, `RunException`)

Python exception values are modelled by an inductive: the three classes of
the worker's own hierarchy, the `AssertionError` raised by a failing
`assert`, and `other` for exceptions from outside the hierarchy (e.g.
`requests` errors). -/

inductive Exc where
  | worker (msg : String)
  | fatal (msg : String)
  | run (msg : String)
  | assertFail
  | other (msg : String)
deriving DecidableEq

/-- `isinstance(e, WorkerException)`: `FatalException` and `RunException`
are subclasses of `WorkerException`. -/
def Exc.isWorkerException : Exc → Bool
  | .worker _ => true
  | .fatal _ => true
  | .run _ => true
  | _ => false

/-- `isinstance(e, FatalException)`. -/
def Exc.isFatalException : Exc → Bool
  | .fatal _ => true
  | _ => false

/-- `WorkerException.__new__(cls, msg, e)`: if `e` is an instance of
`WorkerException` (including its subclasses) the constructor returns `e`
itself, otherwise it builds a fresh `WorkerException` carrying `msg`. -/
def workerExceptionNew (msg : String) (e : Option Exc) : Exc :=
  match e with
  | some ex => if ex.isWorkerException then ex else Exc.worker msg
  | none => Exc.worker msg

/-! ## Object cache (`cache_read` / `cache_write`)

The cache directory is modelled as an association list from names to byte
strings (the files present in the directory).  `cache_write` writes the data
to a fresh temporary file, then tries `os.link(temp, cache/name)`; the link
is atomic and raises `OSError` when `name` already exists, in which case the
write is silently skipped (`except OSError: pass`).  The temporary file is
removed afterwards, so the net effect on the named entries is as below. -/

abbrev Bytes := List Nat

abbrev CacheStore := List (String × Bytes)

/-- `cache_read(cache, name)`: `None` if the cache is disabled (empty cache
directory string) or the entry is absent/unreadable, its content
otherwise. -/
def cache_read (cache : String) (store : CacheStore) (name : String) : Option Bytes :=
  if cache = "" then none
  else store.lookup name

/-- `cache_write(cache, name, data)`: returns the new contents of the cache
directory.  A no-op when the cache is disabled; otherwise links the data
under `name` unless `name` already exists (failed `os.link`), in which case
the write is skipped. -/
def cache_write (cache : String) (store : CacheStore) (name : String) (data : Bytes) :
    CacheStore :=
  if cache = "" then store
  else
    match store.lookup name with
    | some _ => store
    | none => (name, data) :: store

/-! ## Network retry loop (`establish_validated_net`)

When the net is missing or fails validation, `establish_validated_net` runs:

    attempt = 0
    while True:
        try:
            attempt += 1
            download_net(...); validate_net(...)   -- may raise
            break
        except FatalException:
            raise
        except WorkerException:
            if attempt > 5:
                raise
            time.sleep(UPDATE_RETRY_TIME * attempt)   -- 15 * attempt

The body of one iteration is abstracted by its outcome: success, a
`WorkerException` (download or validation failure), or a `FatalException`.
The outcome of attempt number `i` (starting from 1) is `f i`. -/

inductive NetAttempt where
  | ok
  | workerErr
  | fatalErr
deriving DecidableEq

inductive NetOutcome where
  | success
  | workerRaised
  | fatalRaised
deriving DecidableEq

/-- The observable behaviour of the retry loop: how it ended, the number of
the last attempt executed, and the list of sleep durations (seconds)
performed between attempts, in order. -/
structure NetRunResult where
  outcome : NetOutcome
  attempts : Nat
  sleeps : List Nat
deriving DecidableEq

/-- One unrolling of the `while True` loop of `establish_validated_net`,
entered with the attempt counter equal to `attempt0` (so the body first
increments it to `attempt0 + 1`). -/
def establish_loop (f : Nat → NetAttempt) (attempt0 : Nat) : NetRunResult :=
  let attempt := attempt0 + 1
  match f attempt with
  | .ok => { outcome := .success, attempts := attempt, sleeps := [] }
  | .fatalErr => { outcome := .fatalRaised, attempts := attempt, sleeps := [] }
  | .workerErr =>
    if _h : attempt > 5 then
      { outcome := .workerRaised, attempts := attempt, sleeps := [] }
    else
      let r := establish_loop f attempt
      { r with sleeps := 15 * attempt :: r.sleeps }
termination_by 6 - attempt0
decreasing_by omega

/-- The retry loop of `establish_validated_net`, started with `attempt = 0`. -/
def establish_validated_net (f : Nat → NetAttempt) : NetRunResult :=
  establish_loop f 0

/-! ## Bench verification (`verify_signature`)

`verify_signature` spawns `active_cores` children, collects one
`(signature, nps)` pair from each through a queue, then folds over the pairs:
it first adds the nps to the accumulator and then raises `RunException` if
the signature mismatches; after the loop it divides by `active_cores`.
Given that every child reports a pair, the collected results are the list
`results` (of length `active_cores`); Python floats are modelled by `Rat`. -/

def verify_signature_loop (signature : Int) :
    List (Int × Rat) → Rat → Except Exc Rat
  | [], acc => .ok acc
  | (sig, nps) :: rest, acc =>
    let acc1 := acc + nps
    if sig ≠ signature then .error (.run "Wrong bench")
    else verify_signature_loop signature rest acc1

/-- `verify_signature(engine, signature, active_cores)` with the reported
pairs `results` (one per child, so `results.length = active_cores`). -/
def verify_signature (signature : Int) (results : List (Int × Rat)) : Except Exc Rat :=
  match verify_signature_loop signature results 0 with
  | .error e => .error e
  | .ok s => .ok (s / (results.length : Rat))

/-! ## Time-control scaling (`adjust_tc`)

`adjust_tc` splits the string on `+`, `/` and `:`.  A well-formed time
control is abstracted by the outcome of that parse: the optional
moves-per-control prefix (`moves/`), the optional minutes part (`m:s`), the
seconds, and the optional increment (`+inc`).  The scaled control is kept as
exact rationals (the code formats them with 3 decimal places for the child's
command line; the returned `tc_limit` uses the unformatted values). -/

structure TCInput where
  numMoves : Option Nat
  minutes : Option Rat
  seconds : Rat
  increment : Option Rat

/-- The structure of the rebuilt `scaled_tc` string:
`[num_moves/]seconds[+increment]`. -/
structure ScaledTC where
  numMoves : Option Nat
  seconds : Rat
  increment : Option Rat
deriving DecidableEq

/-- `adjust_tc(tc, factor)`: returns the scaled time control and the
wall-clock limit `tc_limit`.  Mirrors the source: the increment is appended
only when positive, and the `num_moves` prefix is kept (and the limit scaled
by `100 / num_moves`) only when `num_moves > 0`. -/
def adjust_tc (tc : TCInput) (factor : Rat) : ScaledTC × Rat :=
  let increment : Rat := match tc.increment with
    | some i => i
    | none => 0
  let num_moves : Nat := match tc.numMoves with
    | some n => n
    | none => 0
  let time_tc : Rat := match tc.minutes with
    | some m => m * 60 + tc.seconds
    | none => tc.seconds
  let base : ScaledTC := { numMoves := none, seconds := time_tc * factor, increment := none }
  let limit0 : Rat := time_tc * factor * 3
  let withInc : ScaledTC × Rat :=
    if increment > 0 then
      ({ base with increment := some (increment * factor) }, limit0 + increment * factor * 200)
    else (base, limit0)
  if num_moves > 0 then
    ({ withInc.1 with numMoves := some num_moves }, withInc.2 * (100 / (num_moves : Rat)))
  else withInc

/-! ## Match-runner supervisor (`parse_fastchess_output`)

The statistics block carried in `result["stats"]`.  Python integers are
modelled by `Int`; the five pentanomial buckets by a record (the code indexes
the list only at 0..4, and the `Ptnml` regex always yields five values). -/

structure Penta where
  p0 : Int
  p1 : Int
  p2 : Int
  p3 : Int
  p4 : Int
deriving DecidableEq

def Penta.sum (p : Penta) : Int := p.p0 + p.p1 + p.p2 + p.p3 + p.p4

/-- Componentwise addition, mirroring
`[fastchess_ptnml_results[i] + saved_stats["pentanomial"][i] for i in range(5)]`. -/
def Penta.add (a b : Penta) : Penta :=
  { p0 := a.p0 + b.p0, p1 := a.p1 + b.p1, p2 := a.p2 + b.p2,
    p3 := a.p3 + b.p3, p4 := a.p4 + b.p4 }

structure Stats where
  wins : Int
  losses : Int
  draws : Int
  crashes : Int
  time_losses : Int
  pentanomial : Penta
deriving DecidableEq

/-- The dictionary built from a `Games: …, Wins: …, Losses: …, Draws: …,
Points: …` line (`points` is parsed as a float but never used afterwards). -/
structure WLDResults where
  games : Int
  wins : Int
  losses : Int
  draws : Int
  points : Rat
deriving DecidableEq

/-- The `spsa` sub-dictionary of `result`. -/
structure SpsaState where
  num_games : Int
  wins : Int
  losses : Int
  draws : Int
deriving DecidableEq

/-- The outcome of one `send_api_post_request("/api/update_task", …)` call:
either it raised (with or without the exception being a `FatalException`),
or it returned a JSON dictionary, abstracted by whether `"error"` is among
its keys and its `task_alive` field. -/
inductive PostOutcome where
  | exc (fatal : Bool)
  | reply (hasError : Bool) (task_alive : Bool)

inductive UpdateResult where
  | fatalRaised
  | tooManyFailed
  | taskDead
  | succeeded
deriving DecidableEq

/-- The `update_task` POST retry loop of `parse_fastchess_output` (also used
verbatim by `send_datagen_result`):

    update_succeeded = False
    for _ in range(5):
        try:
            response = send_api_post_request(remote + "/api/update_task", result)
            if "error" in response:
                break
        except Exception as e:
            if isinstance(e, FatalException):
                raise e
        else:
            if not response["task_alive"]:
                return False
            update_succeeded = True
            break
        time.sleep(UPDATE_RETRY_TIME)
    if not update_succeeded:
        raise WorkerException("Too many failed update attempts")

`post i` is the outcome of the (i+1)-st POST.  Note that a `break` leaves
the `try` suite, skipping the `else` clause, so when the reply contains
`"error"` the loop exits with `update_succeeded` still `False` and the
post-loop check raises. -/
def update_task_retry_loop (post : Nat → PostOutcome) : Nat → UpdateResult
  | 0 => .tooManyFailed
  | n + 1 =>
    match post 0 with
    | .exc true => .fatalRaised
    | .exc false => update_task_retry_loop (fun i => post (i + 1)) n
    | .reply true _ => .tooManyFailed
    | .reply false false => .taskDead
    | .reply false true => .succeeded

/-- A line read from the child, abstracted by the outcome of the substring
and regex tests that `parse_fastchess_output` applies to it, plus the oracle
for the POSTs the supervisor would issue while handling it. -/
structure Line where
  finished_match : Bool
  warn_no_option : Bool
  warn_invalid_value : Bool
  disconnect_or_stall : Bool
  on_time : Bool
  wld : Option WLDResults
  ptnml : Option Penta
  post : Nat → PostOutcome

/-- The per-supervisor constants: the deep copy of `result["stats"]` taken at
entry, the SPSA flag, and the batch bookkeeping parameters. -/
structure SupParams where
  saved : Stats
  spsa_tuning : Bool
  games_to_play : Int
  batch_size : Int

/-- The mutable state threaded through the line-processing loop. -/
structure SupState where
  stats : Stats
  spsa : SpsaState
  wldCapture : Option WLDResults
  ptnmlCapture : Option Penta
  num_games_updated : Int
deriving DecidableEq

inductive StepOut where
  | cont (s : SupState)
  | stop (s : SupState)
deriving DecidableEq

def StepOut.state : StepOut → SupState
  | .cont s => s
  | .stop s => s

/-- The batch-commit assignment: the committed W/L/D and pentanomial are the
freshly parsed values added to the saved baseline; `crashes` and
`time_losses` of the running statistics are left untouched. -/
def commit_stats (saved : Stats) (wld : WLDResults) (pt : Penta) (cur : Stats) : Stats :=
  { cur with
    pentanomial := pt.add saved.pentanomial,
    wins := wld.wins + saved.wins,
    losses := wld.losses + saved.losses,
    draws := wld.draws + saved.draws }

/-- Processing of one line by the body of the `while` loop of
`parse_fastchess_output`: `.error` models an exception propagating out of the
supervisor, `.ok (.stop _)` models `return False` (task no longer alive),
`.ok (.cont _)` continues the loop with the new state. -/
def process_line (P : SupParams) (s : SupState) (l : Line) : Except Exc StepOut :=
  if l.finished_match ∧ s.num_games_updated ≠ P.games_to_play then
    .error (.worker "Finished match uncleanly")
  else if l.warn_no_option then
    .error (.run "fastchess says: ... doesn't have option ...")
  else if l.warn_invalid_value then
    .error (.run "fastchess says: Warning, Invalid value ...")
  else
    let stats0 :=
      { s.stats with crashes := s.stats.crashes + (if l.disconnect_or_stall then 1 else 0) }
    let stats1 :=
      { stats0 with time_losses := stats0.time_losses + (if l.on_time then 1 else 0) }
    let wldC := if l.wld.isSome then l.wld else s.wldCapture
    let ptC := if l.ptnml.isSome then l.ptnml else s.ptnmlCapture
    match wldC, ptC with
    | some wld, some pt =>
      let stats2 := commit_stats P.saved wld pt stats1
      let spsa1 :=
        if P.spsa_tuning then
          { s.spsa with wins := wld.wins, losses := wld.losses, draws := wld.draws }
        else s.spsa
      let num_games_finished := wld.games
      if 2 * stats2.pentanomial.sum ≠ stats2.wins + stats2.losses + stats2.draws then
        .error .assertFail
      else if num_games_finished ≠ 2 * pt.sum then
        .error .assertFail
      else if ¬ (num_games_finished ≤ s.num_games_updated + P.batch_size) then
        .error .assertFail
      else if ¬ (num_games_finished ≤ P.games_to_play) then
        .error .assertFail
      else
        let s1 : SupState :=
          { stats := stats2, spsa := spsa1, wldCapture := none, ptnmlCapture := none,
            num_games_updated := s.num_games_updated }
        if num_games_finished = s.num_games_updated + P.batch_size ∨
            num_games_finished = P.games_to_play then
          match update_task_retry_loop l.post 5 with
          | .fatalRaised => .error (.fatal "fatal during update_task")
          | .tooManyFailed => .error (.worker "Too many failed update attempts")
          | .taskDead => .ok (.stop s1)
          | .succeeded => .ok (.cont { s1 with num_games_updated := num_games_finished })
        else
          .ok (.cont s1)
    | wldC1, ptC1 =>
      .ok (.cont { s with stats := stats1, wldCapture := wldC1, ptnmlCapture := ptC1 })

/-- The supervisor loop over a finite sequence of lines: it stops at the
first exception (`.error`), at `return False` (result `(false, _)`), or when
the lines are exhausted (result `(true, _)`, the final state). -/
def run_lines (P : SupParams) : SupState → List Line → Except Exc (Bool × SupState)
  | s, [] => .ok (true, s)
  | s, l :: ls =>
    match process_line P s l with
    | .error e => .error e
    | .ok (.stop s1) => .ok (false, s1)
    | .ok (.cont s1) => run_lines P s1 ls

/-! ## Datagen supervisor (`parse_datagen_output`)

After its reading loop ends, `parse_datagen_output` adds the last parsed
`wld` to the saved baseline and then overwrites pentanomial buckets 1, 2
and 3 (only) from the cumulative totals:

    result["stats"]["pentanomial"][1] = max(-winLossDiff, 0)
    result["stats"]["pentanomial"][2] = int((wins + draws + losses) / 2 - abs(winLossDiff))
    result["stats"]["pentanomial"][3] = max(winLossDiff, 0)

`int()` of a float truncates toward zero. -/

/-- Python `int(x)` for a real-valued `x`: truncation toward zero. -/
def pyIntOfRat (x : Rat) : Int := if 0 ≤ x then ⌊x⌋ else ⌈x⌉

/-- `wld` as parsed from the `finished games` line: token 8 is wins,
token 4 losses, token 6 draws. -/
structure DatagenWLD where
  wins : Int
  losses : Int
  draws : Int
deriving DecidableEq

/-- The statistics update performed by `parse_datagen_output` after its
reading loop: cumulative W/L/D are baseline plus parsed, and only
pentanomial buckets 1..3 are assigned (buckets 0 and 4 keep whatever the
running statistics held). -/
def parse_datagen_update (saved : Stats) (wld : DatagenWLD) (cur : Stats) : Stats :=
  let wins := wld.wins + saved.wins
  let losses := wld.losses + saved.losses
  let draws := wld.draws + saved.draws
  let winLossDiff := wins - losses
  let p := cur.pentanomial
  { cur with
    wins := wins, losses := losses, draws := draws,
    pentanomial :=
      { p with
        p1 := max (-winLossDiff) 0,
        p2 := pyIntOfRat (((wins + draws + losses : Int) : Rat) / 2 - |((winLossDiff : Int) : Rat)|),
        p3 := max winLossDiff 0 } }

/-! ## Theorems -/

/-- C8: wrapping a `FatalException` through the `WorkerException` constructor
returns the fatal exception itself, so the constructed value is still a
`FatalException`: a catch-and-wrap cannot downgrade fatality. -/
theorem claim_C8_wrap_preserves_fatal (m s : String) :
    workerExceptionNew m (some (Exc.fatal s)) = Exc.fatal s ∧
    (workerExceptionNew m (some (Exc.fatal s))).isFatalException = true := by
  exact ⟨rfl, rfl⟩

/-- C10: with the cache disabled (empty cache-directory string), `cache_read`
returns `none` for every name and `cache_write` leaves the store untouched;
both return normally for every name and data. -/
theorem claim_C10_cache_disabled (store : CacheStore) (name : String) (data : Bytes) :
    cache_read "" store name = none ∧ cache_write "" store name data = store := by
  constructor <;> simp [cache_read, cache_write]

/-- C4: once `cache_write` has linked `name` into place, a second
`cache_write` for the same name is silently skipped (the hard link fails on
an existing name), so `cache_read` still returns the first data. -/
theorem claim_C4_first_writer_wins (cache : String) (store : CacheStore)
    (name : String) (b b2 : Bytes)
    (hcache : cache ≠ "") (habsent : store.lookup name = none) :
    cache_read cache (cache_write cache (cache_write cache store name b) name b2) name =
      some b := by
  unfold cache_write cache_read
  rw [if_neg hcache, if_neg hcache, if_neg hcache, habsent]
  simp [List.lookup]

/-- Witness for C4 at a concrete cache, name and data. -/
theorem claim_C4_witness :
    cache_read "cachedir" (cache_write "cachedir"
      (cache_write "cachedir" [] "nn" [1, 2]) "nn" [3, 4]) "nn" = some [1, 2] :=
  claim_C4_first_writer_wins "cachedir" [] "nn" [1, 2] [3, 4] (by decide) rfl

/-- C2 counterexample: when the very first `update_task` reply contains an
`error` key, the retry loop is aborted but the commit is not treated as a
success: `update_succeeded` is still false (the `break` skips the `else`
clause of the `try`), so the supervisor raises
`WorkerException("Too many failed update attempts")` instead of
continuing. -/
theorem claim_C2_counterexample :
    update_task_retry_loop (fun _ => PostOutcome.reply true true) 5 =
      UpdateResult.tooManyFailed ∧
    UpdateResult.tooManyFailed ≠ UpdateResult.succeeded := by
  exact ⟨rfl, by decide⟩

/-- C2 (amended): a reply containing `error` aborts the retry loop
immediately (the result does not depend on the outcomes of any later
attempts), and the commit is treated as a failure: the loop ends with
`update_succeeded` false, so `WorkerException("Too many failed update
attempts")` is raised. -/
theorem claim_C2_error_reply_aborts (post : Nat → PostOutcome) (ta : Bool) (n : Nat)
    (h : post 0 = PostOutcome.reply true ta) :
    update_task_retry_loop post (n + 1) = UpdateResult.tooManyFailed := by
  unfold update_task_retry_loop
  rw [h]

/-- Witness for the amended C2 at a concrete reply stream. -/
theorem claim_C2_witness :
    update_task_retry_loop (fun _ => PostOutcome.reply true false) 5 =
      UpdateResult.tooManyFailed :=
  claim_C2_error_reply_aborts (fun _ => PostOutcome.reply true false) false 4 rfl

/-- C3 counterexample: with every download attempt failing with a
`WorkerException`, the loop of `establish_validated_net` executes 6 attempts
(not 5): the counter is incremented before the body and the raise condition
is `attempt > 5`, so sleeps of 15, 30, 45, 60, 75 seconds separate 6
attempts, after which the error is surfaced. -/
theorem claim_C3_counterexample :
    establish_validated_net (fun _ => NetAttempt.workerErr) =
      { outcome := NetOutcome.workerRaised, attempts := 6,
        sleeps := [15, 30, 45, 60, 75] } ∧
    (6 : Nat) ≠ 5 := by
  constructor
  · simp [establish_validated_net, establish_loop]
  · decide

/-- The sleeps performed by attempts `a + 1, …, a + k` of the retry loop when
each of them fails with a `WorkerException`. -/
theorem establish_loop_all_worker (f : Nat → NetAttempt) :
    ∀ k a, a + k = 5 →
      (∀ i, a + 1 ≤ i → i ≤ 6 → f i = NetAttempt.workerErr) →
      establish_loop f a =
        { outcome := NetOutcome.workerRaised, attempts := 6,
          sleeps := (List.range' (a + 1) k).map (fun i => 15 * i) } := by
  intro k
  induction k with
  | zero =>
    intro a ha hf
    have ha5 : a = 5 := by omega
    subst ha5
    have h6 : f 6 = NetAttempt.workerErr := hf 6 (by omega) (by omega)
    rw [establish_loop]
    simp [h6]
  | succ k ih =>
    intro a ha hf
    have h1 : f (a + 1) = NetAttempt.workerErr := hf (a + 1) (by omega) (by omega)
    rw [establish_loop]
    simp only [h1]
    rw [dif_neg (by omega)]
    rw [ih (a + 1) (by omega) (fun i hi h6 => hf i (by omega) h6)]
    rw [List.range'_succ]
    simp

/-- If attempts `a + 1, …, a + k` fail with `WorkerException` and attempt
`a + k + 1` raises a `FatalException`, the loop stops at that attempt. -/
theorem establish_loop_fatal (f : Nat → NetAttempt) :
    ∀ k a, a + k + 1 ≤ 6 →
      (∀ i, a + 1 ≤ i → i ≤ a + k → f i = NetAttempt.workerErr) →
      f (a + k + 1) = NetAttempt.fatalErr →
      establish_loop f a =
        { outcome := NetOutcome.fatalRaised, attempts := a + k + 1,
          sleeps := (List.range' (a + 1) k).map (fun i => 15 * i) } := by
  intro k
  induction k with
  | zero =>
    intro a _ha _hw hfat
    rw [establish_loop]
    simp only [show a + 0 + 1 = a + 1 from by omega] at hfat
    simp [hfat]
  | succ k ih =>
    intro a ha hw hfat
    have h1 : f (a + 1) = NetAttempt.workerErr := hw (a + 1) (by omega) (by omega)
    rw [establish_loop]
    simp only [h1]
    rw [dif_neg (by omega)]
    rw [ih (a + 1) (by omega) (fun i hi hk => hw i (by omega) (by omega))
      (by simpa [show a + 1 + k + 1 = a + (k + 1) + 1 from by omega] using hfat)]
    rw [List.range'_succ]
    simp only [List.map_cons]
    simp only [NetRunResult.mk.injEq]
    refine ⟨trivial, by omega, trivial⟩

/-- C3 (amended): `establish_validated_net` retries the download-and-validate
step up to 6 attempts (the counter is incremented before the body and the
raise condition is `attempt > 5`), sleeping `15 * attempt` seconds after each
of the first 5 failed attempts (back-off 15, 30, 45, 60, 75 s), then surfaces
the `WorkerException`; a `FatalException` raised during any attempt bypasses
the retry loop and propagates immediately, with no further attempts or
sleeps. -/
theorem claim_C3_retry_behaviour (f : Nat → NetAttempt) :
    ((∀ i, 1 ≤ i → i ≤ 6 → f i = NetAttempt.workerErr) →
      establish_validated_net f =
        { outcome := NetOutcome.workerRaised, attempts := 6,
          sleeps := [15, 30, 45, 60, 75] }) ∧
    (∀ k, k + 1 ≤ 6 →
      (∀ i, 1 ≤ i → i ≤ k → f i = NetAttempt.workerErr) →
      f (k + 1) = NetAttempt.fatalErr →
      establish_validated_net f =
        { outcome := NetOutcome.fatalRaised, attempts := k + 1,
          sleeps := (List.range' 1 k).map (fun i => 15 * i) }) := by
  constructor
  · intro hf
    have h := establish_loop_all_worker f 5 0 (by omega)
      (fun i hi h6 => hf i (by omega) h6)
    rw [establish_validated_net, h]
    decide
  · intro k hk hw hfat
    have h := establish_loop_fatal f k 0 (by omega)
      (fun i hi hik => hw i (by omega) (by omega)) (by simpa using hfat)
    rw [establish_validated_net]
    simpa using h

/-- Witness for the amended C3: all six attempts fail, and a fatal error at
the third attempt stops the loop there. -/
theorem claim_C3_witness :
    establish_validated_net (fun _ => NetAttempt.workerErr) =
      { outcome := NetOutcome.workerRaised, attempts := 6,
        sleeps := [15, 30, 45, 60, 75] } ∧
    establish_validated_net
        (fun i => if i = 3 then NetAttempt.fatalErr else NetAttempt.workerErr) =
      { outcome := NetOutcome.fatalRaised, attempts := 3, sleeps := [15, 30] } := by
  constructor
  · exact (claim_C3_retry_behaviour (fun _ => NetAttempt.workerErr)).1
      (fun i h1 h6 => rfl)
  · have h := (claim_C3_retry_behaviour
        (fun i => if i = 3 then NetAttempt.fatalErr else NetAttempt.workerErr)).2
      2 (by omega) (fun i h1 h2 => by
        have : i ≠ 3 := by omega
        simp [this]) (by simp)
    rw [h]
    decide

/-- When every reported signature matches, the bench loop returns the
accumulator plus the sum of the reported nps values. -/
theorem verify_signature_loop_ok (signature : Int) :
    ∀ (l : List (Int × Rat)) (acc : Rat),
      (∀ p ∈ l, p.1 = signature) →
      verify_signature_loop signature l acc = .ok (acc + (l.map Prod.snd).sum) := by
  intro l
  induction l with
  | nil => intro acc _h; simp [verify_signature_loop]
  | cons p rest ih =>
    intro acc hall
    obtain ⟨sig, nps⟩ := p
    have hsig : sig = signature := hall (sig, nps) (by simp)
    rw [verify_signature_loop]
    rw [if_neg (by simp [hsig])]
    rw [ih (acc + nps) (fun q hq => hall q (by simp [hq]))]
    simp only [List.map_cons, List.sum_cons]
    ring_nf

/-- When some reported signature mismatches, the bench loop raises
`RunException("Wrong bench …")`. -/
theorem verify_signature_loop_err (signature : Int) :
    ∀ (l : List (Int × Rat)) (acc : Rat),
      (∃ p ∈ l, p.1 ≠ signature) →
      verify_signature_loop signature l acc = .error (.run "Wrong bench") := by
  intro l
  induction l with
  | nil => intro acc h; simp at h
  | cons p rest ih =>
    intro acc hex
    obtain ⟨sig, nps⟩ := p
    rw [verify_signature_loop]
    by_cases hsig : sig = signature
    · rw [if_neg (by simp [hsig])]
      apply ih
      obtain ⟨q, hq, hq2⟩ := hex
      rcases List.mem_cons.mp hq with h1 | h1
      · exfalso; apply hq2; rw [h1, hsig]
      · exact ⟨q, h1, hq2⟩
    · rw [if_pos (by simpa using hsig)]

/-- C5: `verify_signature` raises `RunException("Wrong bench …")` as soon as
any reported signature differs from the expected one; when all signatures
match it returns the arithmetic mean of the reported nodes-per-second values
(their sum divided by the number of children, which equals `active_cores`
since every child reports exactly one pair). -/
theorem claim_C5_verify_signature (signature : Int) (results : List (Int × Rat)) :
    ((∃ p ∈ results, p.1 ≠ signature) →
      verify_signature signature results = .error (.run "Wrong bench")) ∧
    ((∀ p ∈ results, p.1 = signature) →
      verify_signature signature results =
        .ok ((results.map Prod.snd).sum / (results.length : Rat))) := by
  constructor
  · intro hex
    rw [verify_signature, verify_signature_loop_err signature results 0 hex]
  · intro hall
    rw [verify_signature, verify_signature_loop_ok signature results 0 hall]
    rw [zero_add]

/-- Witness for C5: two children, both with the expected signature 7 and nps
values 4 and 8; the result is their mean 6. -/
theorem claim_C5_witness :
    verify_signature 7 [(7, 4), (7, 8)] = .ok 6 := by
  have h := (claim_C5_verify_signature 7 [(7, 4), (7, 8)]).2 (by decide)
  rw [h]
  norm_num

/-- C6: `adjust_tc` on a well-formed time control (nonnegative increment,
positive moves-per-control when present) keeps the moves prefix unscaled,
scales the seconds (including the minutes part) and the increment by
`factor`, and returns the wall-clock limit
`scaled_seconds * 3 + scaled_inc * 200`, multiplied by `100 / num_moves`
when a moves-per-control prefix is present. -/
theorem claim_C6_adjust_tc (tc : TCInput) (factor : Rat)
    (hinc : ∀ i, tc.increment = some i → 0 ≤ i)
    (hmov : ∀ n, tc.numMoves = some n → 0 < n) :
    (adjust_tc tc factor).1.numMoves = tc.numMoves ∧
    (adjust_tc tc factor).1.seconds =
      (match tc.minutes with
        | some m => m * 60 + tc.seconds
        | none => tc.seconds) * factor ∧
    (∀ i, tc.increment = some i → 0 < i →
      (adjust_tc tc factor).1.increment = some (i * factor)) ∧
    (adjust_tc tc factor).2 =
      ((match tc.minutes with
        | some m => m * 60 + tc.seconds
        | none => tc.seconds) * factor * 3 +
        (match tc.increment with
          | some i => i
          | none => 0) * factor * 200) *
        (match tc.numMoves with
          | some n => (100 : Rat) / (n : Rat)
          | none => 1) := by
  obtain ⟨nm, mins, sec, inc⟩ := tc
  match nm, inc with
  | none, none =>
    refine ⟨by simp [adjust_tc], by simp [adjust_tc], by simp, ?_⟩
    simp [adjust_tc]
  | none, some i =>
    have hi : 0 ≤ i := hinc i rfl
    rcases eq_or_lt_of_le hi with hi0 | hipos
    · refine ⟨by simp [adjust_tc, ← hi0], by simp [adjust_tc, ← hi0], ?_, ?_⟩
      · intro j hj hjpos
        injection hj with hj1
        exfalso
        rw [← hj1, ← hi0] at hjpos
        exact lt_irrefl 0 hjpos
      · simp [adjust_tc, ← hi0]
    · refine ⟨by simp [adjust_tc, hipos], by simp [adjust_tc, hipos], ?_, ?_⟩
      · intro j hj _hjpos
        injection hj with hj1
        subst hj1
        simp [adjust_tc, hipos]
      · simp [adjust_tc, hipos]
  | some n, none =>
    have hn : 0 < n := hmov n rfl
    refine ⟨by simp [adjust_tc, hn], by simp [adjust_tc, hn], by simp, ?_⟩
    simp [adjust_tc, hn]
  | some n, some i =>
    have hn : 0 < n := hmov n rfl
    have hi : 0 ≤ i := hinc i rfl
    rcases eq_or_lt_of_le hi with hi0 | hipos
    · refine ⟨by simp [adjust_tc, hn, ← hi0], by simp [adjust_tc, hn, ← hi0], ?_, ?_⟩
      · intro j hj hjpos
        injection hj with hj1
        exfalso
        rw [← hj1, ← hi0] at hjpos
        exact lt_irrefl 0 hjpos
      · simp [adjust_tc, hn, ← hi0]
    · refine ⟨by simp [adjust_tc, hn, hipos], by simp [adjust_tc, hn, hipos], ?_, ?_⟩
      · intro j hj _hjpos
        injection hj with hj1
        subst hj1
        simp [adjust_tc, hn, hipos]
      · simp [adjust_tc, hn, hipos]

/-- Witness for C6: the time control `40/1:30+1` scaled by factor 2 gives the
limit `(90 * 2 * 3 + 1 * 2 * 200) * (100 / 40) = 2350`. -/
theorem claim_C6_witness :
    (adjust_tc ⟨some 40, some 1, 30, some 1⟩ 2).2 = 2350 := by
  have h := (claim_C6_adjust_tc ⟨some 40, some 1, 30, some 1⟩ 2
      (fun i hi => by injection hi with h1; rw [← h1]; norm_num)
      (fun n hn => by injection hn with h1; omega)).2.2.2
  rw [h]
  norm_num

/-- Truncation toward zero of `n / 2` agrees with `Int.tdiv n 2`. -/
theorem pyIntOfRat_half (n : Int) : pyIntOfRat ((n : Rat) / 2) = n.tdiv 2 := by
  unfold pyIntOfRat
  rcases le_or_lt 0 n with hn | hn
  · rw [if_pos (by positivity)]
    have h := Rat.floor_intCast_div_natCast n 2
    push_cast at h
    rw [h, Int.tdiv_eq_ediv hn (by norm_num)]
  · rw [if_neg (by
      push_neg
      apply div_neg_of_neg_of_pos
      · exact_mod_cast hn
      · norm_num)]
    have h2 : ((n : Rat) / 2) = -(((-n : Int) : Rat) / 2) := by push_cast; ring
    rw [h2, Int.ceil_neg]
    have h := Rat.floor_intCast_div_natCast (-n) 2
    push_cast at h
    push_cast
    rw [h]
    rw [show (-n) / (2 : Int) = (-n).tdiv 2 from
      (Int.tdiv_eq_ediv (by omega) (by norm_num)).symm]
    rw [Int.neg_tdiv, neg_neg]

/-- C7 counterexample: starting from a baseline whose pentanomial bucket 0 is
1 (and equal running statistics), after parsing 3 cumulative wins, 0 losses
and 0 draws the datagen update leaves bucket 0 at 1 — not 0 as the claim
states — and sets bucket 2 to `int(3/2 - 3) = -1`, not to the exact value
`3/2 - |3 - 0| = -3/2`. -/
theorem claim_C7_counterexample :
    (parse_datagen_update (⟨0, 0, 0, 0, 0, ⟨1, 0, 0, 0, 0⟩⟩ : Stats) ⟨3, 0, 0⟩
      (⟨0, 0, 0, 0, 0, ⟨1, 0, 0, 0, 0⟩⟩ : Stats)).pentanomial.p0 = 1 ∧
    (1 : Int) ≠ 0 ∧
    (parse_datagen_update (⟨0, 0, 0, 0, 0, ⟨1, 0, 0, 0, 0⟩⟩ : Stats) ⟨3, 0, 0⟩
      (⟨0, 0, 0, 0, 0, ⟨1, 0, 0, 0, 0⟩⟩ : Stats)).pentanomial.p2 = -1 ∧
    ((-1 : Rat) ≠ (3 : Rat) / 2 - |(3 : Rat) - 0|) := by
  refine ⟨by decide, by decide, ?_, by norm_num⟩
  show pyIntOfRat (((3 : Int) : Rat) / 2 - |((3 : Int) : Rat)|) = -1
  norm_num [pyIntOfRat, Int.ceil_eq_iff]

/-- C7 (amended): on success the datagen supervisor sets the cumulative
totals to baseline plus parsed and derives pentanomial buckets 1, 2 and 3
arithmetically from the cumulative W, L, D: with Δ = W − L,
bucket 1 = max(−Δ, 0), bucket 3 = max(Δ, 0), and bucket 2 =
int((W+D+L)/2 − |Δ|) truncated toward zero, i.e. `(W+D+L − 2·|Δ|).tdiv 2`;
buckets 0 and 4 are left unchanged from the running statistics (they are not
assigned, hence not set to 0 in general). -/
theorem claim_C7_datagen_pentanomial (saved cur : Stats) (wld : DatagenWLD) :
    (parse_datagen_update saved wld cur).wins = wld.wins + saved.wins ∧
    (parse_datagen_update saved wld cur).losses = wld.losses + saved.losses ∧
    (parse_datagen_update saved wld cur).draws = wld.draws + saved.draws ∧
    (parse_datagen_update saved wld cur).pentanomial.p1 =
      max (-(wld.wins + saved.wins - (wld.losses + saved.losses))) 0 ∧
    (parse_datagen_update saved wld cur).pentanomial.p3 =
      max (wld.wins + saved.wins - (wld.losses + saved.losses)) 0 ∧
    (parse_datagen_update saved wld cur).pentanomial.p2 =
      Int.tdiv (wld.wins + saved.wins + (wld.draws + saved.draws) +
        (wld.losses + saved.losses) -
        2 * |wld.wins + saved.wins - (wld.losses + saved.losses)|) 2 ∧
    (parse_datagen_update saved wld cur).pentanomial.p0 = cur.pentanomial.p0 ∧
    (parse_datagen_update saved wld cur).pentanomial.p4 = cur.pentanomial.p4 := by
  refine ⟨rfl, rfl, rfl, rfl, rfl, ?_, rfl, rfl⟩
  show pyIntOfRat _ = _
  rw [show ((((wld.wins + saved.wins) + (wld.draws + saved.draws) +
      (wld.losses + saved.losses) : Int) : Rat) / 2 -
      |(((wld.wins + saved.wins - (wld.losses + saved.losses)) : Int) : Rat)| : Rat) =
      (((wld.wins + saved.wins + (wld.draws + saved.draws) +
        (wld.losses + saved.losses) -
        2 * |wld.wins + saved.wins - (wld.losses + saved.losses)| : Int) : Rat) / 2) from by
    push_cast [Int.cast_abs]
    ring]
  exact pyIntOfRat_half _

set_option maxHeartbeats 3200000 in
/-- C1: whenever the supervisor commits a batch (both a WLD and a
pentanomial capture are present after processing the current line) and the
line is processed without raising, the committed statistics are the freshly
parsed values added to the baseline captured at supervisor entry — they do
not depend on the running W/L/D/pentanomial values of the state `s` — and
they satisfy `2 * sum(pentanomial) = wins + losses + draws` (an update whose
statistics violated this would raise `AssertionError` instead of being
committed). -/
theorem claim_C1_batch_commit (P : SupParams) (s : SupState) (l : Line)
    (wld : WLDResults) (pt : Penta) (out : StepOut)
    (hw : (if l.wld.isSome then l.wld else s.wldCapture) = some wld)
    (hp : (if l.ptnml.isSome then l.ptnml else s.ptnmlCapture) = some pt)
    (hok : process_line P s l = .ok out) :
    (out.state.stats.wins = wld.wins + P.saved.wins ∧
     out.state.stats.losses = wld.losses + P.saved.losses ∧
     out.state.stats.draws = wld.draws + P.saved.draws ∧
     out.state.stats.pentanomial = pt.add P.saved.pentanomial) ∧
    2 * out.state.stats.pentanomial.sum =
      out.state.stats.wins + out.state.stats.losses + out.state.stats.draws := by
  cases hdc : l.disconnect_or_stall <;> cases hot : l.on_time <;>
    cases hsp : P.spsa_tuning <;>
  all_goals (
    unfold process_line at hok
    rw [hw, hp] at hok
    simp only [hdc, hot, hsp, Bool.false_eq_true, if_true, if_false] at hok
    split at hok
    · simp at hok
    split at hok
    · simp at hok
    split at hok
    · simp at hok
    split at hok
    · simp at hok
    next h1 =>
    split at hok
    · simp at hok
    split at hok
    · simp at hok
    split at hok
    · simp at hok
    rw [not_ne_iff] at h1
    split at hok
    · split at hok
      · simp at hok
      · simp at hok
      · injection hok with h2
        subst h2
        simp only [StepOut.state]
        simp only [commit_stats, Penta.add, Penta.sum] at h1 ⊢
        refine ⟨⟨?_, ?_, ?_, ?_⟩, ?_⟩ <;> trivial
      · injection hok with h2
        subst h2
        simp only [StepOut.state]
        simp only [commit_stats, Penta.add, Penta.sum] at h1 ⊢
        refine ⟨⟨?_, ?_, ?_, ?_⟩, ?_⟩ <;> trivial
    · injection hok with h2
      subst h2
      simp only [StepOut.state]
      simp only [commit_stats, Penta.add, Penta.sum] at h1 ⊢
      refine ⟨⟨?_, ?_, ?_, ?_⟩, ?_⟩ <;> trivial)

/-- Witness for C1: a commit of one finished game pair (wins 1, losses 1,
pentanomial `[0,0,1,0,0]`) onto a zero baseline, below the batch boundary. -/
theorem claim_C1_witness :
    ((StepOut.cont ⟨⟨1, 1, 0, 0, 0, ⟨0, 0, 1, 0, 0⟩⟩, ⟨0, 0, 0, 0⟩, none, none,
        0⟩).state.stats.wins = 1 + 0 ∧
      (StepOut.cont ⟨⟨1, 1, 0, 0, 0, ⟨0, 0, 1, 0, 0⟩⟩, ⟨0, 0, 0, 0⟩, none, none,
        0⟩).state.stats.pentanomial =
        Penta.add ⟨0, 0, 1, 0, 0⟩ ⟨0, 0, 0, 0, 0⟩) ∧
    2 * (StepOut.cont ⟨⟨1, 1, 0, 0, 0, ⟨0, 0, 1, 0, 0⟩⟩, ⟨0, 0, 0, 0⟩, none, none,
        0⟩).state.stats.pentanomial.sum =
      (StepOut.cont ⟨⟨1, 1, 0, 0, 0, ⟨0, 0, 1, 0, 0⟩⟩, ⟨0, 0, 0, 0⟩, none, none,
        0⟩).state.stats.wins +
      (StepOut.cont ⟨⟨1, 1, 0, 0, 0, ⟨0, 0, 1, 0, 0⟩⟩, ⟨0, 0, 0, 0⟩, none, none,
        0⟩).state.stats.losses +
      (StepOut.cont ⟨⟨1, 1, 0, 0, 0, ⟨0, 0, 1, 0, 0⟩⟩, ⟨0, 0, 0, 0⟩, none, none,
        0⟩).state.stats.draws := by
  have h := claim_C1_batch_commit
    ⟨⟨0, 0, 0, 0, 0, ⟨0, 0, 0, 0, 0⟩⟩, false, 8, 8⟩
    ⟨⟨0, 0, 0, 0, 0, ⟨0, 0, 0, 0, 0⟩⟩, ⟨0, 0, 0, 0⟩, none, none, 0⟩
    ⟨false, false, false, false, false, some ⟨2, 1, 1, 0, 0⟩, some ⟨0, 0, 1, 0, 0⟩,
      fun _ => .reply false true⟩
    ⟨2, 1, 1, 0, 0⟩ ⟨0, 0, 1, 0, 0⟩
    (StepOut.cont ⟨⟨1, 1, 0, 0, 0, ⟨0, 0, 1, 0, 0⟩⟩, ⟨0, 0, 0, 0⟩, none, none, 0⟩)
    rfl rfl rfl
  exact ⟨⟨h.1.1, h.1.2.2.2⟩, h.2⟩

set_option maxHeartbeats 3200000 in
/-- `crashes` and `time_losses` are incremented in place by line processing:
after a successfully processed line they equal the previous values plus the
line's own contribution; in particular a batch commit leaves them alone. -/
theorem process_line_counters (P : SupParams) (s : SupState) (l : Line) (out : StepOut)
    (hok : process_line P s l = .ok out) :
    out.state.stats.crashes =
      s.stats.crashes + (if l.disconnect_or_stall then 1 else 0) ∧
    out.state.stats.time_losses =
      s.stats.time_losses + (if l.on_time then 1 else 0) := by
  cases hdc : l.disconnect_or_stall <;> cases hot : l.on_time <;>
    cases hsp : P.spsa_tuning <;>
  all_goals (
    unfold process_line at hok
    simp only [hdc, hot, hsp, Bool.false_eq_true, if_true, if_false] at hok
    split at hok
    · simp at hok
    split at hok
    · simp at hok
    split at hok
    · simp at hok
    split at hok
    case _ wld pt =>
      split at hok
      · simp at hok
      split at hok
      · simp at hok
      split at hok
      · simp at hok
      split at hok
      · simp at hok
      split at hok
      · split at hok
        · simp at hok
        · simp at hok
        · injection hok with h2
          subst h2
          simp [StepOut.state, commit_stats]
        · injection hok with h2
          subst h2
          simp [StepOut.state, commit_stats]
      · injection hok with h2
        subst h2
        simp [StepOut.state, commit_stats]
    case _ wldC1 ptC1 _heq =>
      injection hok with h2
      subst h2
      simp [StepOut.state])

/-- The two counters never decrease across any successfully processed
sequence of lines. -/
theorem run_lines_counters_mono (P : SupParams) :
    ∀ (ls : List Line) (s : SupState) (b : Bool) (s1 : SupState),
      run_lines P s ls = .ok (b, s1) →
      s.stats.crashes ≤ s1.stats.crashes ∧
      s.stats.time_losses ≤ s1.stats.time_losses := by
  intro ls
  induction ls with
  | nil =>
    intro s b s1 h
    rw [run_lines] at h
    injection h with h1
    injection h1 with hb hs
    subst hs
    exact ⟨le_refl _, le_refl _⟩
  | cons l rest ih =>
    intro s b s1 h
    rw [run_lines] at h
    cases hpl : process_line P s l with
    | error e => rw [hpl] at h; simp at h
    | ok o =>
      rw [hpl] at h
      have hc := process_line_counters P s l o hpl
      have hstep : s.stats.crashes ≤ o.state.stats.crashes ∧
          s.stats.time_losses ≤ o.state.stats.time_losses := by
        cases l.disconnect_or_stall <;> cases l.on_time <;>
          simp_all <;> omega
      cases o with
      | stop s2 =>
        simp only [] at h
        injection h with h1
        injection h1 with hb hs
        subst hs
        exact hstep
      | cont s2 =>
        simp only [] at h
        have h2 := ih s2 b s1 h
        exact ⟨le_trans hstep.1 h2.1, le_trans hstep.2 h2.2⟩

/-- C9: within one supervisor run, `crashes` and `time_losses` are
incremented in place when a matching line arrives (`disconnects` /
`connection stalls`, resp. `on time`) and are never rewritten from the saved
baseline by a batch commit — after every successfully processed line they
equal the previous values plus the line's contribution — so both counters
are monotonically non-decreasing across any processed sequence of lines and
commits. -/
theorem claim_C9_counters_monotone :
    (∀ (P : SupParams) (s : SupState) (l : Line) (out : StepOut),
      process_line P s l = .ok out →
      out.state.stats.crashes =
        s.stats.crashes + (if l.disconnect_or_stall then 1 else 0) ∧
      out.state.stats.time_losses =
        s.stats.time_losses + (if l.on_time then 1 else 0)) ∧
    (∀ (P : SupParams) (s : SupState) (ls : List Line) (b : Bool) (s1 : SupState),
      run_lines P s ls = .ok (b, s1) →
      s.stats.crashes ≤ s1.stats.crashes ∧
      s.stats.time_losses ≤ s1.stats.time_losses) :=
  ⟨process_line_counters, fun P s ls b s1 h => run_lines_counters_mono P ls s b s1 h⟩

/-- Witness for C9: a two-line run (one crash line, one time-loss line) on a
zero state; the counters end at 1 each, not below their start. -/
theorem claim_C9_witness :
    (⟨⟨0, 0, 0, 0, 0, ⟨0, 0, 0, 0, 0⟩⟩, ⟨0, 0, 0, 0⟩, none, none, 0⟩ :
        SupState).stats.crashes ≤
      (⟨⟨0, 0, 0, 1, 1, ⟨0, 0, 0, 0, 0⟩⟩, ⟨0, 0, 0, 0⟩, none, none, 0⟩ :
        SupState).stats.crashes ∧
    (⟨⟨0, 0, 0, 0, 0, ⟨0, 0, 0, 0, 0⟩⟩, ⟨0, 0, 0, 0⟩, none, none, 0⟩ :
        SupState).stats.time_losses ≤
      (⟨⟨0, 0, 0, 1, 1, ⟨0, 0, 0, 0, 0⟩⟩, ⟨0, 0, 0, 0⟩, none, none, 0⟩ :
        SupState).stats.time_losses :=
  claim_C9_counters_monotone.2
    ⟨⟨0, 0, 0, 0, 0, ⟨0, 0, 0, 0, 0⟩⟩, false, 8, 8⟩
    ⟨⟨0, 0, 0, 0, 0, ⟨0, 0, 0, 0, 0⟩⟩, ⟨0, 0, 0, 0⟩, none, none, 0⟩
    [⟨false, false, false, true, false, none, none, fun _ => .reply false true⟩,
     ⟨false, false, false, false, true, none, none, fun _ => .reply false true⟩]
    true
    ⟨⟨0, 0, 0, 1, 1, ⟨0, 0, 0, 0, 0⟩⟩, ⟨0, 0, 0, 0⟩, none, none, 0⟩
    rfl

end Montytest
